import Mathlib

/-!
Verification of the document-information-extraction notebooks.

Python strings are modelled as lists of characters; the streamed Bedrock
response, the try/except error handling, the Textract processing loop, the
PDF-to-base64 conversion, the request-body construction, the output-filename
computation and the S3-URI parsing are shallowly embedded below, and the
behavioural claims about them are proved as theorems at the end of the file.
-/

/-- Python strings, modelled as lists of characters. -/
abbrev PyStr := List Char

/-- Coerce a Lean string literal to the Python-string model. -/
def pystr (s : String) : PyStr := s.data

/-! ## Streamed-response events (`invoke_model_with_response_stream` loop)

Each event of the response stream is consumed by the accumulation loop:
`event.get("chunk")` may be falsy; a present chunk is JSON-decoded and may
lack the `"delta"` key; a present `"delta"` value may itself be falsy; a
truthy delta carries an optional `"text"` field. -/

/-- One event of the streamed model response, as seen by the accumulation
loop in the source notebooks. -/
inductive StreamEvent where
  /-- `event.get("chunk")` is absent or falsy. -/
  | noChunk
  /-- chunk present but `"delta" in chunk_obj` is false. -/
  | chunkNoDeltaKey
  /-- `"delta"` key present but `chunk_obj.get("delta", None)` is falsy. -/
  | chunkFalsyDelta
  /-- truthy delta object whose `"text"` field is `text` (absent = `none`). -/
  | chunkDelta (text : Option PyStr)
deriving DecidableEq

/-- The accumulation loop of the source:
`output = ""` then for each event, skip falsy chunks, skip chunk objects
without a truthy `"delta"`, append `delta_obj.get("text", None)` to `output`
when it is not `None`, and `break` when the text is falsy (absent or empty). -/
def accumulateStream : List StreamEvent → PyStr
  | [] => []
  | e :: rest =>
    match e with
    | .noChunk => accumulateStream rest
    | .chunkNoDeltaKey => accumulateStream rest
    | .chunkFalsyDelta => accumulateStream rest
    | .chunkDelta none => []
    | .chunkDelta (some t) => if t = [] then t else t ++ accumulateStream rest

/-- The `"text"` fields of the truthy-delta events, in stream order. -/
def deltaTexts (events : List StreamEvent) : List (Option PyStr) :=
  events.filterMap fun e =>
    match e with
    | .chunkDelta t => some t
    | _ => none

/-- A delta text that is present and non-empty (a truthy Python string). -/
def isNonEmptyText : Option PyStr → Bool
  | some t => !t.isEmpty
  | none => false

/-- Specification-side accumulation: concatenation, in stream order, of the
delta texts taken up to (excluding) the first absent-or-empty one. -/
def specAccumulated (events : List StreamEvent) : PyStr :=
  (((deltaTexts events).takeWhile isNonEmptyText).filterMap id).flatten

/-! ## Model invocation and its try/except error handling -/

/-- Outcome of evaluating the `try` block around
`invoke_model_with_response_stream`: the call and accumulation loop complete
over a list of stream events, or a `botocore.exceptions.ClientError` carrying
an error code and message is raised, or some other exception is raised. -/
inductive InvokeOutcome where
  | success (events : List StreamEvent)
  | clientError (code message : PyStr)
  | otherError (info : PyStr)
deriving DecidableEq

/-- Observable result of the invocation cell. -/
inductive CellResult where
  /-- the try block ran to completion with the accumulated output. -/
  | completed (output : PyStr)
  /-- `AccessDeniedException`: the remediation hint was printed. -/
  | printedAccessHint (message : PyStr)
  /-- any other `ClientError`: `raise error` re-raises it. -/
  | reraisedClientError (code message : PyStr)
  /-- a non-`ClientError` exception propagates uncaught. -/
  | uncaught (info : PyStr)
deriving DecidableEq

/-- The `try`/`except botocore.exceptions.ClientError` of the source: an
access-denied client error prints the hint, every other client error is
re-raised, and any other exception is not caught at all. -/
def handleInvoke : InvokeOutcome → CellResult
  | .success events => .completed (accumulateStream events)
  | .clientError code message =>
      if code = pystr "AccessDeniedException" then .printedAccessHint message
      else .reraisedClientError code message
  | .otherError info => .uncaught info

/-- The invocation cell, run against an oracle of invocation outcomes: it
draws exactly one outcome (the invocation is attempted once, with no retry)
and hands the rest of the oracle back untouched. -/
def runInvocationCell : List InvokeOutcome → Option CellResult × List InvokeOutcome
  | [] => (none, [])
  | o :: rest => (some (handleInvoke o), rest)

/-! ## Python string helpers used by the notebooks -/

/-- Python `str.removesuffix`: drop a trailing occurrence of `suffix`, if any. -/
def removesuffix (s suffix : PyStr) : PyStr :=
  if suffix.isSuffixOf s then s.take (s.length - suffix.length) else s

/-- Python `str.removeprefix` (named `removeprefixStr` here): drop a leading
occurrence of `pre`, if any. -/
def removeprefixStr (s pre : PyStr) : PyStr :=
  if pre.isPrefixOf s then s.drop pre.length else s

/-- The Boolean predicate "is not the character `c`". -/
def notChar (c : Char) : Char → Bool := fun x => x ≠ c

/-- Python `s.split(sep, 1)`: split on the first occurrence of `sep` only. -/
def split_once (sep : Char) (s : PyStr) : List PyStr :=
  match s.dropWhile (notChar sep) with
  | [] => [s.takeWhile (notChar sep)]
  | _ :: tail => [s.takeWhile (notChar sep), tail]

/-- `base_filename.removesuffix(".pdf") + "_textract.txt"` (Textract path). -/
def textract_output_filename (base_filename : PyStr) : PyStr :=
  removesuffix base_filename (pystr ".pdf") ++ pystr "_textract.txt"

/-- `base_filename.removesuffix(".pdf") + "_bedrock.txt"` (Bedrock path). -/
def bedrock_output_filename (base_filename : PyStr) : PyStr :=
  removesuffix base_filename (pystr ".pdf") ++ pystr "_bedrock.txt"

/-- The f-string `f"s3://{s3_bucket}/{key}"` used to build S3 URIs. -/
def format_s3_uri (s3_bucket key : PyStr) : PyStr :=
  pystr "s3://" ++ s3_bucket ++ pystr "/" ++ key

/-- `uri.removeprefix("s3://").split("/", 1)` from the data-automation
notebook: bucket and key of an S3 URI. -/
def s3_uri_parts (uri : PyStr) : List PyStr :=
  split_once '/' (removeprefixStr uri (pystr "s3://"))

/-! ## The Textract processing loop -/

/-- An entry of the S3 `list_objects_v2` response: we track its `"Key"`. -/
structure S3Object where
  key : PyStr
deriving DecidableEq

/-- A Textractor document object; `get_text` returns its linearized text. -/
structure TextractDocument where
  text : PyStr
deriving DecidableEq

/-- `document.get_text(config=MarkdownLinearizationConfig)`: on a `None`
receiver the attribute access raises, otherwise the document text results. -/
def get_text : Option TextractDocument → Except PyStr PyStr
  | none => .error (pystr "AttributeError")
  | some document => .ok document.text

/-- Modelled from the spec: the Textractor OCR call of the TASK 1 placeholder
(the source leaves `document = None`; the completed call is not under src).
Per the spec, the "local or API-based OCR" step obtains a document object for
the listed S3 file; the OCR service is modelled as a function from the S3
filename to the detected document, so the call always yields a document. -/
def textractorCall (ocr : PyStr → TextractDocument) (s3_filename : PyStr) :
    Option TextractDocument :=
  some (ocr s3_filename)

/-- Observable actions of one iteration of the processing loop. -/
inductive LoopAction where
  /-- `print(f"Processing {obj['Key']}")` at the top of the iteration. -/
  | startProcessing (key : PyStr)
  /-- `get_text` was evaluated on this receiver. -/
  | getTextOn (receiver : Option TextractDocument)
  /-- `text_file.write(document_text)` to the opened output file. -/
  | writeFile (filename contents : PyStr)
deriving DecidableEq

/-- The body of one iteration of the Textract processing loop. -/
def processOne (ocr : PyStr → TextractDocument) (s3_bucket : PyStr)
    (obj : S3Object) : Except PyStr (List LoopAction) :=
  let base_filename := obj.key
  let s3_filename := format_s3_uri s3_bucket base_filename
  let output_filename := textract_output_filename base_filename
  let document := textractorCall ocr s3_filename
  match get_text document with
  | .error e => .error e
  | .ok document_text =>
      .ok [.startProcessing base_filename, .getTextOn document,
           .writeFile output_filename document_text]

/-- The `for obj in file_objects` loop: each listed object is processed
end-to-end before the next one starts; an exception aborts the loop. -/
def textractLoop (ocr : PyStr → TextractDocument) (s3_bucket : PyStr) :
    List S3Object → Except PyStr (List LoopAction)
  | [] => .ok []
  | obj :: rest =>
    match processOne ocr s3_bucket obj with
    | .error e => .error e
    | .ok actions =>
      match textractLoop ocr s3_bucket rest with
      | .error e => .error e
      | .ok actions2 => .ok (actions ++ actions2)

/-- Specification-side trace: the per-object action blocks, concatenated in
listing order. -/
def textractTraceSpec (ocr : PyStr → TextractDocument) (s3_bucket : PyStr)
    (objects : List S3Object) : List LoopAction :=
  (objects.map fun obj =>
    [LoopAction.startProcessing obj.key,
     LoopAction.getTextOn (some (ocr (format_s3_uri s3_bucket obj.key))),
     LoopAction.writeFile (textract_output_filename obj.key)
       (ocr (format_s3_uri s3_bucket obj.key)).text]).flatten

/-- The file write performed by an action, if it is one. -/
def writeOf : LoopAction → Option (PyStr × PyStr)
  | .writeFile filename contents => some (filename, contents)
  | _ => none

/-! ## Bedrock multimodal request construction -/

/-- One entry of the `content` list of a message. -/
inductive ContentItem where
  /-- `{"type": "image", "source": {"type": "base64", "media_type": ...,
  "data": ...}}`. -/
  | image (media_type data : PyStr)
  /-- `{"type": "text", "text": ...}`. -/
  | text (text : PyStr)
deriving DecidableEq

/-- A message of the Anthropic messages API. -/
structure Message where
  role : PyStr
  content : List ContentItem
deriving DecidableEq

/-- `messages_content`: one base64-JPEG image entry per element of `images`,
then the text entry holding the prompt appended at the end. -/
def messages_content (images : List PyStr) (prompt : PyStr) : List ContentItem :=
  (images.map fun image_str => ContentItem.image (pystr "image/jpeg") image_str)
    ++ [ContentItem.text prompt]

/-- The `messages` list sent to the model: a single user message. -/
def bedrockMessages (images : List PyStr) (prompt : PyStr) : List Message :=
  [{ role := pystr "user", content := messages_content images prompt }]

/-- The dictionary serialized by `json.dumps` into the request body. -/
structure RequestBody where
  max_tokens : Nat
  system : PyStr
  temperature : ℚ
  messages : List Message
  anthropic_version : PyStr
deriving DecidableEq

/-- The request body of the multimodal OCR call. -/
def bedrockOcrRequestBody (images : List PyStr) (prompt system_prompt : PyStr) :
    RequestBody :=
  { max_tokens := 4096
    system := system_prompt
    temperature := 0
    messages := bedrockMessages images prompt
    anthropic_version := pystr "bedrock-2023-05-31" }

/-! ## PDF pages to base64 JPEG strings -/

/-- The 64 byte values of the standard base64 alphabet, in order. -/
def base64AlphabetBytes : List Nat :=
  (List.range 26).map (65 + ·) ++ (List.range 26).map (97 + ·) ++
    (List.range 10).map (48 + ·) ++ [43, 47]

/-- The byte of the base64 alphabet at sextet value `i`. -/
def b64char (i : Nat) : Nat := base64AlphabetBytes.getD i 65

/-- Standard base64 encoding of a byte sequence (`base64.b64encode`),
producing the ASCII bytes of the encoding, `=`-padded. -/
def b64encodeBytes : List Nat → List Nat
  | [] => []
  | [b1] => [b64char (b1 / 4), b64char (b1 % 4 * 16), 61, 61]
  | [b1, b2] =>
      [b64char (b1 / 4), b64char (b1 % 4 * 16 + b2 / 16),
       b64char (b2 % 16 * 4), 61]
  | b1 :: b2 :: b3 :: rest =>
      b64char (b1 / 4) :: b64char (b1 % 4 * 16 + b2 / 16) ::
        b64char (b2 % 16 * 4 + b3 / 64) :: b64char (b3 % 64) ::
        b64encodeBytes rest

/-- `bytes.decode("utf-8")`, restricted to the ASCII range (every byte below
128 decodes to the character of the same code point; the base64 output used
here never leaves that range). Non-ASCII input is modelled as a failure. -/
def utf8Decode (bs : List Nat) : Option PyStr :=
  if bs.all (fun b => b < 128) then some (bs.map fun b => Char.ofNat b) else none

/-- A `pdf2image` page image; `image.save(buffered, format="JPEG")` writes
its JPEG serialization into the in-memory buffer. -/
structure PILImage where
  jpeg : List Nat
deriving DecidableEq

/-- `get_base64_encoded_images_from_pdf`: convert the PDF to page images,
serialize each page to JPEG in an in-memory buffer, base64-encode it and
UTF-8-decode the result, collecting the strings in page order. The second
component records the disk writes the function performs (none: the buffer is
in-memory and the function opens no files). `convert_from_path` is the
pdf2image conversion, an external collaborator passed as a function. -/
def get_base64_encoded_images_from_pdf
    (convert_from_path : PyStr → List PILImage) (pdf_file_path : PyStr) :
    List (Option PyStr) × List (PyStr × PyStr) :=
  let images := convert_from_path pdf_file_path
  (images.foldl (fun base64_img_strs image =>
      let buffered := image.jpeg
      let img_str := b64encodeBytes buffered
      let base64_string := utf8Decode img_str
      base64_img_strs ++ [base64_string]) [],
   [])

/-! ## Naive JSON extraction (attribute-extraction notebook) -/

/-- Modelled from the spec: the naive JSON extraction of the TASK 3 cell (the
source holds only the placeholder `json_file`; the completed parsing is not
under src). Per the spec, one JSON object per document is parsed out of the
accumulated streamed text; the naive extraction is modelled as the span of
the output from the first opening brace to the last closing brace, when a
non-empty such span exists. -/
def extract_json_object (output : PyStr) : Option PyStr :=
  let fromBrace := output.dropWhile (notChar '{')
  let upToClose := (fromBrace.reverse.dropWhile (notChar '}')).reverse
  if upToClose = [] then none else some upToClose

/-- The attribute-extraction run for one document: accumulate the streamed
response, then extract the one JSON object from the accumulated text. -/
def extractAttributesRun (events : List StreamEvent) : Option PyStr :=
  extract_json_object (accumulateStream events)

/-! ## The data-automation invocation cell -/

/-- Python values, as needed for the data-automation cell. -/
inductive PyValue where
  | str (s : PyStr)
  | tuple (items : List PyValue)

/-- The data-automation profile ARN f-string built from `REGION_ID` and
`ACCOUNT_ID` in the invocation cell. -/
def profile_arn_string (region_id account_id : PyStr) : PyStr :=
  pystr "arn:aws:bedrock:" ++ region_id ++ pystr ":" ++ account_id ++
    pystr ":data-automation-profile/us.data-automation-v1"

/-- The value bound to `dataAutomationProfileArn` by the cell: the source
wraps the ARN f-string in parentheses with a trailing comma, so the bound
value is a one-element tuple, not a string. -/
def dataAutomationProfileArn (region_id account_id : PyStr) : PyValue :=
  .tuple [.str (profile_arn_string region_id account_id)]

/-- The names bound in the data-automation notebook by the time the
`invoke_data_automation_async` call expression is evaluated (imports and
assignments of the preceding cells, plus `dataAutomationProfileArn` assigned
at the top of the same cell). -/
def definedNamesAtInvokeCall : List String :=
  ["json", "os", "boto3", "botocore", "bda_client", "bda_runtime_client",
   "ACCOUNT_ID", "REGION_ID", "input_path", "output_path", "s3_bucket",
   "s3_client", "response", "file_objects", "obj", "s3_file_key",
   "blueprint_name", "blueprint_description", "blueprint_type",
   "blueprint_stage", "blueprint_schema", "list_blueprints_response",
   "blueprint", "blueprint_arn", "dataAutomationProfileArn"]

/-- The name the source passes as the `dataAutomationProfileArn` keyword
argument of `invoke_data_automation_async`. -/
def profileArnArgumentName : String := "default_profile_arn"

/-- Evaluating a Python name: a `NameError` when the name is not bound. -/
def evalPyName (env : List String) (n : String) : Except PyStr String :=
  if n ∈ env then .ok n else .error (pystr "NameError")

/-- C1: the accumulated output of the streaming loop equals the concatenation,
in stream order, of the `"text"` fields of truthy deltas of events carrying a
non-empty chunk, up to the first delta whose text is absent or empty; other
events contribute nothing and do not stop the accumulation. -/
theorem c1_stream_accumulation (events : List StreamEvent) :
    accumulateStream events = specAccumulated events := by
  induction events with
  | nil => rfl
  | cons e rest ih =>
    cases e with
    | noChunk =>
      simpa [accumulateStream, specAccumulated, deltaTexts, List.filterMap_cons] using ih
    | chunkNoDeltaKey =>
      simpa [accumulateStream, specAccumulated, deltaTexts, List.filterMap_cons] using ih
    | chunkFalsyDelta =>
      simpa [accumulateStream, specAccumulated, deltaTexts, List.filterMap_cons] using ih
    | chunkDelta t =>
      cases t with
      | none =>
        simp [accumulateStream, specAccumulated, deltaTexts, List.filterMap_cons,
          List.takeWhile, isNonEmptyText]
      | some s =>
        by_cases hs : s = []
        · subst hs
          simp [accumulateStream, specAccumulated, deltaTexts, List.filterMap_cons,
            List.takeWhile, isNonEmptyText]
        · have hne : isNonEmptyText (some s) = true := by
            simp [isNonEmptyText, List.isEmpty_iff, hs]
          simp only [accumulateStream, if_neg hs, specAccumulated, deltaTexts,
            List.filterMap_cons, List.takeWhile_cons, hne, if_true]
          simpa [specAccumulated, deltaTexts] using ih

/-- C2: exactly one error path exists in the model-invocation step: a client
error whose code is `"AccessDeniedException"` is caught and the remediation
hint printed, every other client error is re-raised, non-client-error
exceptions propagate uncaught, and the invocation consumes exactly one
outcome from the oracle (no retry, backoff, or recovery). -/
theorem c2_single_error_path (o : InvokeOutcome) (oracle : List InvokeOutcome) :
    runInvocationCell (o :: oracle) = (some (handleInvoke o), oracle) ∧
    ((∃ m, handleInvoke o = .printedAccessHint m) ↔
      (∃ m, o = .clientError (pystr "AccessDeniedException") m)) ∧
    (∀ code message, o = .clientError code message →
      code ≠ pystr "AccessDeniedException" →
      handleInvoke o = .reraisedClientError code message) ∧
    (∀ info, o = .otherError info → handleInvoke o = .uncaught info) := by
  refine ⟨rfl, ⟨?_, ?_⟩, ?_, ?_⟩
  · rintro ⟨m, hm⟩
    cases o with
    | success events => simp [handleInvoke] at hm
    | clientError code message =>
      by_cases hc : code = pystr "AccessDeniedException"
      · subst hc; exact ⟨message, rfl⟩
      · simp [handleInvoke, hc] at hm
    | otherError info => simp [handleInvoke] at hm
  · rintro ⟨m, rfl⟩
    exact ⟨m, by simp [handleInvoke]⟩
  · rintro code message rfl hc
    simp [handleInvoke, hc]
  · rintro info rfl
    rfl

/-- C2 witness: at a concrete throttling client error, the error is re-raised
and the rest of the oracle is left untouched. -/
theorem c2_single_error_path_witness :
    handleInvoke (.clientError (pystr "ThrottlingException") (pystr "slow down")) =
      .reraisedClientError (pystr "ThrottlingException") (pystr "slow down") :=
  (c2_single_error_path
    (.clientError (pystr "ThrottlingException") (pystr "slow down")) []).2.2.1
    (pystr "ThrottlingException") (pystr "slow down") rfl (by decide)

/-- C7: the messages list of the multimodal OCR call is a single `"user"`
message whose content is one base64-JPEG image entry per element of `images`,
in order, followed by exactly one text entry holding the prompt as the final
element; the request body fixes `max_tokens` to 4096 and `temperature` to 0. -/
theorem c7_request_construction (images : List PyStr)
    (prompt system_prompt : PyStr) :
    (bedrockOcrRequestBody images prompt system_prompt).max_tokens = 4096 ∧
    (bedrockOcrRequestBody images prompt system_prompt).temperature = 0 ∧
    (bedrockOcrRequestBody images prompt system_prompt).messages =
      [{ role := pystr "user", content := messages_content images prompt }] ∧
    (messages_content images prompt).take images.length =
      images.map (fun image_str =>
        ContentItem.image (pystr "image/jpeg") image_str) ∧
    (messages_content images prompt).getLast? = some (ContentItem.text prompt) ∧
    (messages_content images prompt).length = images.length + 1 := by
  refine ⟨rfl, rfl, rfl, ?_, ?_, ?_⟩
  · have h : images.length = (images.map fun image_str =>
        ContentItem.image (pystr "image/jpeg") image_str).length :=
      (List.length_map _ _).symm
    rw [messages_content, h, List.take_left]
  · rw [messages_content, List.getLast?_concat]
  · simp [messages_content]

/-- Removing the `.pdf` suffix from a key that ends with exactly one copy of
it recovers the key. -/
theorem removesuffix_append_pdf (key : PyStr) :
    removesuffix (key ++ pystr ".pdf") (pystr ".pdf") = key := by
  have hsuf : (pystr ".pdf").isSuffixOf (key ++ pystr ".pdf") := by
    rw [List.isSuffixOf_iff_suffix]
    exact List.suffix_append key (pystr ".pdf")
  have hlen : (key ++ pystr ".pdf").length - (pystr ".pdf").length =
      key.length := by
    rw [List.length_append]
    omega
  rw [removesuffix, if_pos hsuf, hlen, List.take_left]

/-- C8: each local output filename is the key with one trailing `.pdf`
removed exactly when present, plus `_textract.txt` or `_bedrock.txt`; hence a
key not ending in `.pdf` and that same key with `.pdf` appended are distinct
keys mapping to the same output filename. -/
theorem c8_output_filename_collision (key : PyStr) :
    (textract_output_filename key =
      (if (pystr ".pdf").isSuffixOf key then key.take (key.length - 4)
        else key) ++ pystr "_textract.txt") ∧
    (bedrock_output_filename key =
      (if (pystr ".pdf").isSuffixOf key then key.take (key.length - 4)
        else key) ++ pystr "_bedrock.txt") ∧
    (¬ (pystr ".pdf").isSuffixOf key →
      key ++ pystr ".pdf" ≠ key ∧
      textract_output_filename (key ++ pystr ".pdf") =
        textract_output_filename key ∧
      bedrock_output_filename (key ++ pystr ".pdf") =
        bedrock_output_filename key) := by
  have hlen4 : (pystr ".pdf").length = 4 := rfl
  refine ⟨?_, ?_, ?_⟩
  · by_cases hc : (pystr ".pdf").isSuffixOf key <;>
      simp [textract_output_filename, removesuffix, hc, hlen4]
  · by_cases hc : (pystr ".pdf").isSuffixOf key <;>
      simp [bedrock_output_filename, removesuffix, hc, hlen4]
  · intro h
    refine ⟨?_, ?_, ?_⟩
    · intro he
      have hl := congrArg List.length he
      rw [List.length_append, hlen4] at hl
      omega
    · rw [textract_output_filename, textract_output_filename,
        removesuffix_append_pdf, removesuffix, if_neg h]
    · rw [bedrock_output_filename, bedrock_output_filename,
        removesuffix_append_pdf, removesuffix, if_neg h]

/-- C8 witness: `report` and `report.pdf` are distinct keys with the same
output filenames. -/
theorem c8_output_filename_collision_witness :
    (pystr "report" ++ pystr ".pdf" ≠ pystr "report") ∧
    textract_output_filename (pystr "report" ++ pystr ".pdf") =
      textract_output_filename (pystr "report") ∧
    bedrock_output_filename (pystr "report" ++ pystr ".pdf") =
      bedrock_output_filename (pystr "report") :=
  (c8_output_filename_collision (pystr "report")).2.2 (by decide)

/-- `takeWhile (notChar sep)` on a list that avoids `sep` up to a first
occurrence returns exactly the part before that occurrence. -/
theorem takeWhile_notChar_append (sep : Char) (l tail : PyStr) (h : sep ∉ l) :
    (l ++ sep :: tail).takeWhile (notChar sep) = l := by
  induction l with
  | nil => simp [notChar]
  | cons c cs ih =>
    have hc : c ≠ sep := fun hcc => h (hcc ▸ List.mem_cons_self c cs)
    have hcs : sep ∉ cs := fun hm => h (List.mem_cons_of_mem c hm)
    simp [List.cons_append, List.takeWhile_cons, notChar, hc, ih hcs]

/-- `dropWhile (notChar sep)` on a list that avoids `sep` up to a first
occurrence returns that occurrence and everything after it. -/
theorem dropWhile_notChar_append (sep : Char) (l tail : PyStr) (h : sep ∉ l) :
    (l ++ sep :: tail).dropWhile (notChar sep) = sep :: tail := by
  induction l with
  | nil => simp [notChar]
  | cons c cs ih =>
    have hc : c ≠ sep := fun hcc => h (hcc ▸ List.mem_cons_self c cs)
    have hcs : sep ∉ cs := fun hm => h (List.mem_cons_of_mem c hm)
    simp [List.cons_append, List.dropWhile_cons, notChar, hc, ih hcs]

/-- Splitting once at `sep` undoes `l ++ sep :: tail` when `l` avoids `sep`. -/
theorem split_once_append (sep : Char) (l tail : PyStr) (h : sep ∉ l) :
    split_once sep (l ++ sep :: tail) = [l, tail] := by
  rw [split_once, dropWhile_notChar_append sep l tail h,
    takeWhile_notChar_append sep l tail h]

/-- C9: S3-URI parsing is a left inverse of URI formatting: for a bucket
containing no slash and a non-empty key, stripping the `s3://` scheme and
splitting on the first slash recovers exactly the bucket/key pair. -/
theorem c9_s3_uri_left_inverse (bucket key : PyStr) (hb : '/' ∉ bucket)
    (hk : key ≠ []) :
    s3_uri_parts (format_s3_uri bucket key) = [bucket, key] := by
  have hp : (pystr "s3://").isPrefixOf
      (pystr "s3://" ++ (bucket ++ (pystr "/" ++ key))) := by
    rw [ List.isPrefixOf_iff_prefix]
    exact List.prefix_append _ _
  rw [s3_uri_parts, format_s3_uri, List.append_assoc, List.append_assoc,
    removeprefixStr, if_pos hp, List.drop_left]
  exact split_once_append '/' bucket key hb

/-- C9 witness: a concrete bucket/key pair with a nested key round-trips. -/
theorem c9_s3_uri_left_inverse_witness :
    s3_uri_parts
        (format_s3_uri (pystr "my-bucket") (pystr "outputs/job/result.json")) =
      [pystr "my-bucket", pystr "outputs/job/result.json"] :=
  c9_s3_uri_left_inverse (pystr "my-bucket") (pystr "outputs/job/result.json")
    (by decide) (by decide)

/-- C10: evaluating the `invoke_data_automation_async` call expression of the
data-automation cell raises a `NameError`: the argument name
`default_profile_arn` is not among the names bound by the notebook, while the
ARN actually constructed in the cell is bound to `dataAutomationProfileArn` -
and, because of the trailing comma, as a one-element tuple rather than the
ARN string the claim describes. -/
theorem c10_profile_arn_name_error :
    evalPyName definedNamesAtInvokeCall profileArnArgumentName =
      .error (pystr "NameError") ∧
    profileArnArgumentName ∉ definedNamesAtInvokeCall ∧
    "dataAutomationProfileArn" ∈ definedNamesAtInvokeCall ∧
    dataAutomationProfileArn (pystr "us-west-2") (pystr "123456789012") =
      .tuple [.str (profile_arn_string (pystr "us-west-2")
        (pystr "123456789012"))] := by
  refine ⟨?_, by decide, by decide, rfl⟩
  rw [evalPyName, if_neg (by decide)]

/-- C4: with the OCR call of the spec in place, every iteration of the
processing loop produces extracted text and its file write without raising:
`get_text` is only ever evaluated on a valid (non-`None`) document object. -/
theorem c4_ocr_step_runs (ocr : PyStr → TextractDocument) (s3_bucket : PyStr)
    (obj : S3Object) :
    processOne ocr s3_bucket obj =
      Except.ok [.startProcessing obj.key,
        .getTextOn (some (ocr (format_s3_uri s3_bucket obj.key))),
        .writeFile (textract_output_filename obj.key)
          (ocr (format_s3_uri s3_bucket obj.key)).text] ∧
    (∀ actions, processOne ocr s3_bucket obj = Except.ok actions →
      ∀ d, LoopAction.getTextOn d ∈ actions → d.isSome = true) := by
  constructor
  · rfl
  · intro actions h d hd
    have hfst : processOne ocr s3_bucket obj =
        Except.ok [.startProcessing obj.key,
          .getTextOn (some (ocr (format_s3_uri s3_bucket obj.key))),
          .writeFile (textract_output_filename obj.key)
            (ocr (format_s3_uri s3_bucket obj.key)).text] := rfl
    rw [hfst] at h
    injection h with h'
    subst h'
    simp only [List.mem_cons, List.mem_singleton] at hd
    rcases hd with h1 | h1 | h1
    · exact absurd h1 (by simp)
    · rw [LoopAction.getTextOn.injEq] at h1
      subst h1
      rfl
    · exact absurd h1 (by simp)

/-- C4 witness: at a concrete object and OCR oracle, the receiver of the
`get_text` call in the trace is a valid document. -/
theorem c4_ocr_step_runs_witness :
    (some (TextractDocument.mk (pystr "hello"))).isSome = true :=
  (c4_ocr_step_runs (fun _ => ⟨pystr "hello"⟩) (pystr "bkt")
      ⟨pystr "doc.pdf"⟩).2
    [.startProcessing (pystr "doc.pdf"),
     .getTextOn (some ⟨pystr "hello"⟩),
     .writeFile (textract_output_filename (pystr "doc.pdf")) (pystr "hello")]
    rfl (some ⟨pystr "hello"⟩) (by decide)

/-- C5: the loop processes the listed objects strictly sequentially: its
trace is the per-object blocks concatenated in listing order (so the write of
object `i` precedes every action of object `i + 1`), and the file writes are
exactly one per listed object, in order. -/
theorem c5_sequential_processing (ocr : PyStr → TextractDocument)
    (s3_bucket : PyStr) (objects : List S3Object) :
    textractLoop ocr s3_bucket objects =
      Except.ok (textractTraceSpec ocr s3_bucket objects) ∧
    (∀ actions, textractLoop ocr s3_bucket objects = Except.ok actions →
      actions.filterMap writeOf =
        objects.map fun obj =>
          (textract_output_filename obj.key,
           (ocr (format_s3_uri s3_bucket obj.key)).text)) := by
  have h1 : textractLoop ocr s3_bucket objects =
      Except.ok (textractTraceSpec ocr s3_bucket objects) := by
    induction objects with
    | nil => rfl
    | cons obj rest ih =>
      rw [textractLoop, ih]
      rfl
  refine ⟨h1, ?_⟩
  intro actions h
  rw [h1] at h
  injection h with h'
  subst h'
  clear h1
  induction objects with
  | nil => rfl
  | cons obj rest ih =>
    simp only [textractTraceSpec, List.map_cons, List.flatten_cons,
      List.filterMap_append] at ih ⊢
    rw [ih]
    rfl

/-- C5 witness: at two concrete objects, the loop trace carries exactly one
write per object, in listing order. -/
theorem c5_sequential_processing_witness :
    (textractTraceSpec (fun _ => ⟨pystr "txt"⟩) (pystr "b")
        [⟨pystr "a.pdf"⟩, ⟨pystr "b.pdf"⟩]).filterMap writeOf =
      [(textract_output_filename (pystr "a.pdf"), pystr "txt"),
       (textract_output_filename (pystr "b.pdf"), pystr "txt")] := by
  have h := c5_sequential_processing (fun _ => ⟨pystr "txt"⟩) (pystr "b")
    [⟨pystr "a.pdf"⟩, ⟨pystr "b.pdf"⟩]
  exact h.2 _ h.1

/-- Every byte of the base64 alphabet (and the default byte) is ASCII. -/
theorem b64char_lt (i : Nat) : b64char i < 128 := by
  rw [b64char, List.getD_eq_getElem?_getD]
  rcases h : base64AlphabetBytes[i]? with _ | b
  · simp
  · have hb : b ∈ base64AlphabetBytes := List.getElem?_mem h
    have hall : ∀ x ∈ base64AlphabetBytes, x < 128 := by decide
    simpa using hall b hb

/-- Every byte emitted by the base64 encoder is ASCII. -/
theorem b64encodeBytes_lt : ∀ (bs : List Nat), ∀ x ∈ b64encodeBytes bs, x < 128
  | [] => by simp [b64encodeBytes]
  | [b1] => by
    intro x hx
    simp only [b64encodeBytes, List.mem_cons, List.not_mem_nil, or_false] at hx
    rcases hx with rfl | rfl | rfl | rfl <;> first | exact b64char_lt _ | omega
  | [b1, b2] => by
    intro x hx
    simp only [b64encodeBytes, List.mem_cons, List.not_mem_nil, or_false] at hx
    rcases hx with rfl | rfl | rfl | rfl <;> first | exact b64char_lt _ | omega
  | b1 :: b2 :: b3 :: rest => by
    intro x hx
    simp only [b64encodeBytes, List.mem_cons] at hx
    rcases hx with rfl | rfl | rfl | rfl | hx
    · exact b64char_lt _
    · exact b64char_lt _
    · exact b64char_lt _
    · exact b64char_lt _
    · exact b64encodeBytes_lt rest x hx

/-- Pushing elements one at a time onto an accumulator is a map. -/
theorem foldl_push_eq_map (f : PILImage → Option PyStr) :
    ∀ (images : List PILImage) (acc : List (Option PyStr)),
      images.foldl (fun base64_img_strs image =>
        base64_img_strs ++ [f image]) acc = acc ++ images.map f := by
  intro images
  induction images with
  | nil => intro acc; simp
  | cons im rest ih => intro acc; simp [List.foldl_cons, ih]

/-- C6: for a PDF converting to `n` page images, the function returns the `n`
strings, in page order, whose `i`-th element is the UTF-8 decoding of the
base64 encoding of the JPEG serialization of page `i` (the decoding always
succeeds since base64 output is ASCII); it performs no disk writes. -/
theorem c6_pdf_to_base64 (convert_from_path : PyStr → List PILImage)
    (pdf_file_path : PyStr) :
    (get_base64_encoded_images_from_pdf convert_from_path pdf_file_path).1 =
      (convert_from_path pdf_file_path).map
        (fun image => utf8Decode (b64encodeBytes image.jpeg)) ∧
    (get_base64_encoded_images_from_pdf convert_from_path pdf_file_path).1.length =
      (convert_from_path pdf_file_path).length ∧
    (∀ s ∈ (get_base64_encoded_images_from_pdf convert_from_path
        pdf_file_path).1, s.isSome = true) ∧
    (get_base64_encoded_images_from_pdf convert_from_path pdf_file_path).2 =
      [] := by
  have h1 : (get_base64_encoded_images_from_pdf convert_from_path
      pdf_file_path).1 =
      (convert_from_path pdf_file_path).map
        (fun image => utf8Decode (b64encodeBytes image.jpeg)) := by
    simpa [get_base64_encoded_images_from_pdf] using
      foldl_push_eq_map (fun image => utf8Decode (b64encodeBytes image.jpeg))
        (convert_from_path pdf_file_path) []
  refine ⟨h1, by rw [h1, List.length_map], ?_, rfl⟩
  intro s hs
  rw [h1] at hs
  rw [List.mem_map] at hs
  obtain ⟨im, _, rfl⟩ := hs
  have hall : (b64encodeBytes im.jpeg).all (fun b => b < 128) = true := by
    rw [List.all_eq_true]
    intro x hx
    exact decide_eq_true (b64encodeBytes_lt im.jpeg x hx)
  simp [utf8Decode, hall]

/-- C6 witness: a concrete three-byte JPEG page decodes to a string. -/
theorem c6_pdf_to_base64_witness :
    (utf8Decode (b64encodeBytes [255, 216, 255])).isSome = true :=
  (c6_pdf_to_base64 (fun _ => [⟨[255, 216, 255]⟩])
      (pystr "demo-files/2302.13971v1.pdf")).2.2.1
    (utf8Decode (b64encodeBytes [255, 216, 255])) (by decide)

/-- `dropWhile (notChar c)` yields the empty list or a list headed by `c`. -/
theorem dropWhile_notChar_head (c : Char) (l : PyStr) :
    l.dropWhile (notChar c) = [] ∨
      (l.dropWhile (notChar c)).head? = some c := by
  induction l with
  | nil => exact Or.inl rfl
  | cons x xs ih =>
    by_cases hx : x = c
    · subst hx
      right
      simp [List.dropWhile_cons, notChar]
    · simpa [List.dropWhile_cons, notChar, hx] using ih

/-- A non-empty list shares its head with any list it is a prefix of. -/
theorem head_eq_of_prefix_ne_nil {s t : PyStr} (h : s <+: t) (hs : s ≠ []) :
    s.head? = t.head? := by
  obtain ⟨u, rfl⟩ := h
  cases s with
  | nil => exact absurd rfl hs
  | cons a as => rfl

/-- A prefix of a suffix of a list occurs inside it. -/
theorem inside_of_prefix_of_suffix {a b c : PyStr} (h1 : a <+: b)
    (h2 : b <:+ c) : a <:+: c := by
  obtain ⟨t, rfl⟩ := h1
  obtain ⟨s, rfl⟩ := h2
  exact ⟨s, t, by simp⟩

/-- C3: whenever the attribute-extraction run parses a JSON object out of the
accumulated streamed text, it is a single brace-delimited span occurring
inside the accumulated output: it starts at the first opening brace and ends
at the last closing brace. -/
theorem c3_naive_json_extraction (events : List StreamEvent) (blob : PyStr)
    (h : extractAttributesRun events = some blob) :
    blob.head? = some '{' ∧ blob.getLast? = some '}' ∧
    blob <:+: accumulateStream events := by
  rw [extractAttributesRun, extract_json_object] at h
  set output := accumulateStream events with houtput
  set fromBrace := output.dropWhile (notChar '{') with hfb
  set upToClose := (fromBrace.reverse.dropWhile (notChar '}')).reverse
    with hutc
  by_cases hne : upToClose = []
  · rw [if_pos hne] at h
    exact absurd h (by simp)
  · rw [if_neg hne] at h
    injection h with hblob
    subst hblob
    have hpr : upToClose <+: fromBrace := by
      rw [hutc]
      conv_rhs => rw [← List.reverse_reverse fromBrace]
      rw [ List.reverse_prefix]
      exact List.dropWhile_suffix _
    have hsuf : fromBrace <:+ output := by
      rw [hfb]
      exact List.dropWhile_suffix _
    refine ⟨?_, ?_, inside_of_prefix_of_suffix hpr hsuf⟩
    · have hfb_ne : fromBrace ≠ [] := by
        intro hh
        rw [hh] at hpr
        exact hne (List.prefix_nil.mp hpr)
      rcases dropWhile_notChar_head '{' output with h2 | h2
      · exact absurd h2 hfb_ne
      · rw [head_eq_of_prefix_ne_nil hpr hne]
        exact h2
    · have hrev_ne : fromBrace.reverse.dropWhile (notChar '}') ≠ [] := by
        intro hh
        rw [hutc, hh] at hne
        exact hne rfl
      rcases dropWhile_notChar_head '}' fromBrace.reverse with h2 | h2
      · exact absurd h2 hrev_ne
      · rw [← List.head?_reverse, hutc, List.reverse_reverse]
        exact h2

/-- C3 witness: a concrete stream whose accumulated output contains one
brace-delimited object. -/
theorem c3_naive_json_extraction_witness :
    (['{', 'a', '}'] : PyStr).head? = some '{' ∧
    (['{', 'a', '}'] : PyStr).getLast? = some '}' ∧
    (['{', 'a', '}'] : PyStr) <:+:
      accumulateStream [StreamEvent.chunkDelta (some ['x', '{', 'a', '}'])] :=
  c3_naive_json_extraction [StreamEvent.chunkDelta (some ['x', '{', 'a', '}'])]
    ['{', 'a', '}'] (by decide)
